import Mathlib

/-!
Formal model of the equipment-diagnosis / technical-document retrieval pipeline
of the `diy` application: the document crawler and ingestion service
(`DocumentCrawlerService`), the retrieval-augmented-generation helper
(`RAGService`), and the `listen-and-fix` API route orchestrator.

Pure computations (query synthesis, chunking, hashing, HTML stripping,
similarity ranking, store bookkeeping, orchestrator decisions) are translated
directly from the TypeScript source.  Network calls (search, fetch, embedding,
generation) are modelled as explicit oracle arguments: each modelled function
receives the responses it would have obtained over the network as parameters.
JavaScript numbers are modelled as real numbers (embedding coordinates,
similarity scores) or as integers (string hashing, index arithmetic), with
32-bit wrap-around made explicit where the source relies on it.  A JavaScript
division whose result is not a finite number (NaN or an infinity) is modelled
by `Option.none`.
-/

/-! ## JavaScript string primitives -/

/-- Whitespace class of JavaScript regular expressions (the `\s` class),
restricted to the characters that realistically occur in the pipeline. -/
def jsIsWs (c : Char) : Bool :=
  c = ' ' ∨ c = '\t' ∨ c = '\n' ∨ c = '\r' ∨ c = '\x0b' ∨ c = '\x0c' ∨ c = '\xa0'

/-- Number of non-whitespace characters of a character list. -/
def countNonWs (l : List Char) : Nat :=
  (l.filter (fun c => ¬ jsIsWs c)).length

/-- Collapse every run of consecutive spaces to a single space. -/
def squeezeSpaces : List Char → List Char
  | [] => []
  | [c] => [c]
  | a :: b :: rest =>
    if a = ' ' ∧ b = ' ' then squeezeSpaces (b :: rest)
    else a :: squeezeSpaces (b :: rest)

/-- The regex replacement `.replace(/\s+/g, ' ')`: every maximal run of
whitespace becomes a single space.  Each whitespace character is first mapped
to a space, then runs of spaces are collapsed. -/
def collapseWs (l : List Char) : List Char :=
  squeezeSpaces (l.map (fun c => if jsIsWs c then ' ' else c))

/-- JavaScript `String.prototype.trim`: strip leading and trailing whitespace. -/
def jsTrimL (l : List Char) : List Char :=
  ((l.dropWhile jsIsWs).reverse.dropWhile jsIsWs).reverse

/-- String wrapper for `collapseWs`. -/
def collapseWsS (s : String) : String := String.mk (collapseWs s.data)

/-- String wrapper for `jsTrimL`. -/
def jsTrimS (s : String) : String := String.mk (jsTrimL s.data)

/-- JavaScript `String.prototype.replace` with a string pattern: replace the
leftmost occurrence of `pat` (if any) by `rep`. -/
def replaceFirstAux (pat rep : List Char) : List Char → List Char
  | [] => []
  | c :: cs =>
    if pat.isPrefixOf (c :: cs) then rep ++ (c :: cs).drop pat.length
    else c :: replaceFirstAux pat rep cs

/-- String wrapper for `replaceFirstAux`. -/
def replaceFirst (s pat rep : String) : String :=
  String.mk (replaceFirstAux pat.data rep.data s.data)

/-- Deduplication by exact string match preserving first occurrences, the
effect of `[...new Set(xs)]` in JavaScript. -/
def jsSetDedupGo : List String → List String → List String
  | [], _ => []
  | x :: xs, seen => if x ∈ seen then jsSetDedupGo xs seen else x :: jsSetDedupGo xs (x :: seen)

/-- Deduplicate a list of strings, keeping the first occurrence of each. -/
def jsSetDedup (l : List String) : List String := jsSetDedupGo l []

/-! ## Data model: equipment query and search templates -/

/-- The `EquipmentQuery` input record.  Optional fields model the optional
TypeScript fields; `a || ''` in the source reads an optional field with the
empty string as default. -/
structure EquipmentQuery where
  type : String
  make : Option String := none
  model : Option String := none
  year : Option String := none
  symptom : Option String := none
  diagnosis : Option String := none
deriving DecidableEq, Repr

namespace DocumentCrawlerService

/-- Search query templates for the `vehicles` equipment type. -/
def SEARCH_TEMPLATES_vehicles : List String :=
  ["{year} {make} {model} {symptom} repair guide",
   "{make} {model} {diagnosis} how to fix",
   "{year} {make} {model} service manual {diagnosis}",
   "{make} {model} TSB {symptom}",
   "{make} {model} common problems {symptom}"]

/-- Search query templates for the `appliances` equipment type. -/
def SEARCH_TEMPLATES_appliances : List String :=
  ["{make} {model} {symptom} repair",
   "{make} {model} troubleshooting guide",
   "{make} {model} service manual PDF",
   "{make} {model} error codes {symptom}",
   "how to fix {make} {model} {diagnosis}"]

/-- Search query templates for the `hvac` equipment type. -/
def SEARCH_TEMPLATES_hvac : List String :=
  ["{make} {model} {symptom} troubleshooting",
   "{type} {symptom} repair guide",
   "{make} furnace error codes",
   "HVAC {diagnosis} fix DIY"]

/-- Generic search query templates (the `general` entry), used as fallback for
unrecognized equipment types. -/
def SEARCH_TEMPLATES_general : List String :=
  ["{type} {symptom} repair guide",
   "how to fix {type} {diagnosis}",
   "{make} {model} troubleshooting",
   "DIY {type} repair {symptom}"]

/-- Template list selected for an equipment type:
`SEARCH_TEMPLATES[query.type] || SEARCH_TEMPLATES.general`. -/
def searchTemplatesFor (t : String) : List String :=
  if t = "vehicles" then SEARCH_TEMPLATES_vehicles
  else if t = "appliances" then SEARCH_TEMPLATES_appliances
  else if t = "hvac" then SEARCH_TEMPLATES_hvac
  else if t = "general" then SEARCH_TEMPLATES_general
  else SEARCH_TEMPLATES_general

/-- One iteration of the template substitution in `generateSearchQueries`:
replace each placeholder (first occurrence, as JavaScript `replace` with a
string pattern does) by the corresponding field or the empty string, collapse
whitespace, and trim. -/
def substituteTemplate (query : EquipmentQuery) (template : String) : String :=
  jsTrimS (collapseWsS
    (replaceFirst
      (replaceFirst
        (replaceFirst
          (replaceFirst
            (replaceFirst
              (replaceFirst template "{type}" query.type)
              "{make}" (query.make.getD ""))
            "{model}" (query.model.getD ""))
          "{year}" (query.year.getD ""))
        "{symptom}" (query.symptom.getD ""))
      "{diagnosis}" (query.diagnosis.getD "")))

/-- The Query Synthesizer `generateSearchQueries`: substitute the fields into
each template of the selected list, keep the results longer than 10
characters, and deduplicate by exact match. -/
def generateSearchQueries (query : EquipmentQuery) : List String :=
  let templates := searchTemplatesFor query.type
  let queries := (templates.map (substituteTemplate query)).filter (fun q => q.length > 10)
  jsSetDedup queries

end DocumentCrawlerService

/-! ## String hashing and document chunking (DocumentCrawlerService) -/

/-- Reduction of an integer to the signed 32-bit range, the JavaScript
`ToInt32` coercion performed by `hash & hash`. -/
def toInt32 (n : Int) : Int :=
  let m := n % 4294967296
  if m < 2147483648 then m else m - 4294967296

/-- Lower-case base-36 digit, as used by JavaScript `Number.prototype.toString(36)`. -/
def digitChar36 (n : Nat) : Char :=
  if n < 10 then Char.ofNat (48 + n) else Char.ofNat (87 + n)

/-- Digits of `n` in base 36, most significant first. -/
def toBase36Go (n : Nat) (acc : List Char) : List Char :=
  if h : n = 0 then acc
  else toBase36Go (n / 36) (digitChar36 (n % 36) :: acc)
termination_by n
decreasing_by exact Nat.div_lt_self (Nat.pos_of_ne_zero h) (by omega)

/-- JavaScript `n.toString(36)` for a natural number. -/
def toBase36 (n : Nat) : String :=
  if n = 0 then "0" else String.mk (toBase36Go n [])

namespace DocumentCrawlerService

/-- One step of the `hashString` loop:
`hash = ((hash << 5) - hash) + char; hash = hash & hash`.  The shift operates
on the 32-bit truncation, the subtraction and addition are exact (they stay
far below 2^53), and `hash & hash` truncates back to 32 bits. -/
def hashStep (h : Int) (c : Nat) : Int :=
  toInt32 (toInt32 (h * 32) - h + c)

/-- The `hashString` chunk-id hash: fold `hashStep` over the character codes
and render the absolute value in base 36. -/
def hashString (s : String) : String :=
  toBase36 (s.data.foldl (fun h ch => hashStep h ch.toNat) 0).natAbs

end DocumentCrawlerService

/-- Split on the regex `/\n\n+/`: every maximal run of two or more newline
characters separates paragraphs; single newlines stay inside a paragraph.
`cur` is the paragraph being accumulated and `nl` counts newline characters
seen but not yet committed to either side. -/
def splitParasGo : List Char → List Char → Nat → List String
  | [], cur, nl =>
    if nl ≥ 2 then [String.mk cur, ""]
    else [String.mk (cur ++ List.replicate nl '\n')]
  | c :: cs, cur, nl =>
    if c = '\n' then splitParasGo cs cur (nl + 1)
    else if nl ≥ 2 then String.mk cur :: splitParasGo cs [c] 0
    else splitParasGo cs (cur ++ List.replicate nl '\n' ++ [c]) 0

/-- JavaScript `content.split(/\n\n+/)`. -/
def splitParas (s : String) : List String := splitParasGo s.data [] 0

/-- Accumulator step for `jsSplitWs`: `inSep` records whether the previous
character belonged to a whitespace run that already emitted a field. -/
def jsSplitWsGo : List Char → List Char → Bool → List String
  | [], cur, _ => [String.mk cur.reverse]
  | c :: cs, cur, inSep =>
    if jsIsWs c then
      if inSep then jsSplitWsGo cs cur true
      else String.mk cur.reverse :: jsSplitWsGo cs [] true
    else jsSplitWsGo cs (c :: cur) false

/-- JavaScript `s.split(/\s+/)`: split on maximal whitespace runs, keeping
empty fields at the ends when the string starts or ends with whitespace. -/
def jsSplitWs (s : String) : List String := jsSplitWsGo s.data [] false

/-- Take the last `n` elements, JavaScript `xs.slice(-n)`. -/
def jsSliceLast (l : List α) (n : Nat) : List α := l.drop (l.length - n)

/-- Content-type classification of a crawled document. -/
inductive CrawlContentType where
  | article | manual | forum | video_transcript | parts_catalog
deriving DecidableEq, Repr

/-- Metadata block of a `CrawledDocument`. -/
structure CrawlMetadata where
  source : String
  wordCount : Nat
  hasImages : Bool
  hasPartNumbers : Bool
  hasTorqueSpecs : Bool
deriving DecidableEq, Repr

/-- A crawled and distilled page, the `CrawledDocument` record. -/
structure CrawledDocument where
  url : String
  title : String
  content : String
  contentType : CrawlContentType
  extractedAt : String
  metadata : CrawlMetadata
deriving DecidableEq, Repr

/-- A passage produced by the chunker, the `DocumentChunk` record with its
`metadata` block inlined (the optional `section` entry is never populated by
the chunker and is omitted).  The embedding vector is attached later by the
indexer. -/
structure DocumentChunk where
  id : String
  documentUrl : String
  content : String
  chunkIndex : Nat
  embedding : Option (List ℝ) := none
  title : String
  source : String

namespace DocumentCrawlerService

/-- State of the chunking loop: the running buffer, the next chunk ordinal,
and the chunks emitted so far. -/
def chunkStep (url title source : String) (chunkSize overlap : Nat)
    (st : String × Nat × List DocumentChunk) (para : String) :
    String × Nat × List DocumentChunk :=
  let currentChunk := st.1
  let chunkIndex := st.2.1
  let chunks := st.2.2
  if currentChunk.length + para.length > chunkSize ∧ currentChunk.length > 0 then
    let newChunk : DocumentChunk :=
      { id := hashString url ++ "-" ++ toString chunkIndex
        documentUrl := url
        content := jsTrimS currentChunk
        chunkIndex := chunkIndex
        title := title
        source := source }
    let words := jsSplitWs currentChunk
    let overlapWords := jsSliceLast words (overlap / 5)
    (String.intercalate " " overlapWords ++ "\n\n" ++ para,
     chunkIndex + 1, chunks ++ [newChunk])
  else
    ((if currentChunk.length > 0 then currentChunk ++ "\n\n" ++ para else para),
     chunkIndex, chunks)

/-- The chunker `chunkDocument`: accumulate paragraphs into buffers of about
1000 characters with a 40-word overlap between consecutive chunks, and emit a
final chunk when the remaining buffer is longer than 50 characters after
trimming. -/
def chunkDocument (doc : CrawledDocument) : List DocumentChunk :=
  let chunkSize : Nat := 1000
  let overlap : Nat := 200
  let paragraphs := splitParas doc.content
  let final := paragraphs.foldl
    (chunkStep doc.url doc.title doc.metadata.source chunkSize overlap) ("", 0, [])
  if (jsTrimS final.1).length > 50 then
    final.2.2 ++
      [{ id := hashString doc.url ++ "-" ++ toString final.2.1
         documentUrl := doc.url
         content := jsTrimS final.1
         chunkIndex := final.2.1
         title := doc.title
         source := doc.metadata.source }]
  else final.2.2

end DocumentCrawlerService

/-! ## HTML text extraction -/

/-- Case-insensitive character comparison, for the `i` regex flag. -/
def ciEq (a b : Char) : Bool := a.toLower = b.toLower

/-- Case-insensitive prefix test. -/
def ciPrefix : List Char → List Char → Bool
  | [], _ => true
  | _ :: _, [] => false
  | p :: ps, c :: cs => ciEq p c ∧ ciPrefix ps cs

/-- Index of the earliest case-insensitive occurrence of `pat` in `s`. -/
def findCi (pat : List Char) : List Char → Option Nat
  | [] => if ciPrefix pat [] then some 0 else none
  | c :: cs =>
    if ciPrefix pat (c :: cs) then some 0
    else (findCi pat cs).map (· + 1)

/-- Length of the match of `<TAG[^>]*>[\s\S]*?</TAG>` (case-insensitive) at
the head of `s`, if the pattern matches there: the literal `<TAG`, a maximal
run of non-`>` characters closed by `>`, then the shortest stretch up to the
closing `</TAG>`. -/
def matchTagBlock (tag : List Char) (s : List Char) : Option Nat :=
  if ciPrefix ('<' :: tag) s then
    let rest := s.drop (tag.length + 1)
    let attrs := rest.takeWhile (· ≠ '>')
    if attrs.length < rest.length then
      let afterOpen := rest.drop (attrs.length + 1)
      match findCi ('<' :: '/' :: (tag ++ ['>'])) afterOpen with
      | some m => some (tag.length + 1 + attrs.length + 1 + m + (tag.length + 3))
      | none => none
    else none
  else none

/-- The global regex replacement deleting every `<TAG...>...</TAG>` element:
scan left to right, delete each leftmost match, continue after it. -/
def removeTagBlocks (tag : List Char) : List Char → List Char
  | [] => []
  | c :: cs =>
    match matchTagBlock tag (c :: cs) with
    | some len => removeTagBlocks tag (cs.drop (len - 1))
    | none => c :: removeTagBlocks tag cs
termination_by l => l.length
decreasing_by
  · simp only [List.length_cons, List.length_drop]; omega
  · simp only [List.length_cons]; omega

/-- Length of the match of `<!--[\s\S]*?-->` at the head of `s`, if any. -/
def matchComment (s : List Char) : Option Nat :=
  if ['<', '!', '-', '-'].isPrefixOf s then
    match findCi ['-', '-', '>'] (s.drop 4) with
    | some m => some (4 + m + 3)
    | none => none
  else none

/-- The global replacement deleting every HTML comment `<!--...-->`. -/
def removeComments : List Char → List Char
  | [] => []
  | c :: cs =>
    match matchComment (c :: cs) with
    | some len => removeComments (cs.drop (len - 1))
    | none => c :: removeComments cs
termination_by l => l.length
decreasing_by
  · simp only [List.length_cons, List.length_drop]; omega
  · simp only [List.length_cons]; omega

/-- The global replacement `.replace(/<[^>]+>/g, ' ')`: every `<`, followed by
at least one non-`>` character and a `>`, becomes a single space. -/
def replaceTags : List Char → List Char
  | [] => []
  | c :: cs =>
    if c = '<' then
      let inner := cs.takeWhile (· ≠ '>')
      if 0 < inner.length ∧ inner.length < cs.length then
        ' ' :: replaceTags (cs.drop (inner.length + 1))
      else c :: replaceTags cs
    else c :: replaceTags cs
termination_by l => l.length
decreasing_by
  · simp only [List.length_cons, List.length_drop]; omega
  · simp only [List.length_cons]; omega
  · simp only [List.length_cons]; omega

/-- Global replacement of a fixed nonempty pattern, JavaScript
`.replace(/pat/g, rep)` for a literal pattern. -/
def replaceAllL (pat rep : List Char) : List Char → List Char
  | [] => []
  | c :: cs =>
    if pat.isPrefixOf (c :: cs) then rep ++ replaceAllL pat rep (cs.drop (pat.length - 1))
    else c :: replaceAllL pat rep cs
termination_by l => l.length
decreasing_by
  · simp only [List.length_cons, List.length_drop]; omega
  · simp only [List.length_cons]; omega

/-- The lightweight HTML-to-text extraction `extractTextFromHtml`: drop
script/style/nav/footer/header/aside elements and comments, turn remaining
tags into spaces, decode the common entities, collapse whitespace and trim. -/
def extractTextFromHtml (html : String) : String :=
  let text := html.data
  let text := removeTagBlocks "script".data text
  let text := removeTagBlocks "style".data text
  let text := removeTagBlocks "nav".data text
  let text := removeTagBlocks "footer".data text
  let text := removeTagBlocks "header".data text
  let text := removeTagBlocks "aside".data text
  let text := removeComments text
  let text := replaceTags text
  let text := replaceAllL "&nbsp;".data " ".data text
  let text := replaceAllL "&amp;".data "&".data text
  let text := replaceAllL "&lt;".data "<".data text
  let text := replaceAllL "&gt;".data ">".data text
  let text := replaceAllL "&quot;".data "\"".data text
  let text := replaceAllL "&#39;".data "'".data text
  String.mk (jsTrimL (collapseWs text))

/-! ## Content classification and crawl metadata -/

/-- Substring containment test on character lists. -/
def listContains (sub : List Char) : List Char → Bool
  | [] => sub.isPrefixOf []
  | c :: cs => sub.isPrefixOf (c :: cs) || listContains sub cs

/-- JavaScript `s.includes(sub)`. -/
def jsIncludes (s sub : String) : Bool := listContains sub.data s.data

/-- Word character of JavaScript regular expressions (the `\w` class). -/
def isWordChar (c : Char) : Bool := c.isAlpha || c.isDigit || c = '_'

/-- A position satisfies the word-boundary assertion `\b` before a word
character when the preceding character (if any) is not a word character. -/
def prevNonWord : Option Char → Bool
  | none => true
  | some c => ¬ isWordChar c

/-- Run a position-wise matcher over every suffix of the text, tracking the
preceding character; the regex `test` succeeds if any position matches. -/
def scanTest (t : Option Char → List Char → Bool) : Option Char → List Char → Bool
  | prev, [] => t prev []
  | prev, c :: cs => t prev (c :: cs) || scanTest t (some c) cs

/-- Match of `\b[A-Z]{2,}\d{4,}\b` at the head of `s` (the character classes
are disjoint, so the greedy match is the maximal-run match). -/
def matchPartNum1 (prev : Option Char) (s : List Char) : Bool :=
  prevNonWord prev &&
  (let ups := s.takeWhile Char.isUpper
   let rest := s.drop ups.length
   let digs := rest.takeWhile Char.isDigit
   decide (ups.length ≥ 2) && decide (digs.length ≥ 4) &&
     (match (rest.drop digs.length).head? with
      | none => true
      | some c => ¬ isWordChar c))

/-- Match of `\b\d{5,}-[A-Z\d]+\b` at the head of `s`. -/
def matchPartNum2 (prev : Option Char) (s : List Char) : Bool :=
  prevNonWord prev &&
  (let digs := s.takeWhile Char.isDigit
   decide (digs.length ≥ 5) && decide ((s.drop digs.length).head? = some '-') &&
   (let rest := s.drop (digs.length + 1)
    let tl := rest.takeWhile (fun c => c.isUpper || c.isDigit)
    decide (tl.length ≥ 1) &&
      (match (rest.drop tl.length).head? with
       | none => true
       | some c => ¬ isWordChar c)))

/-- The part-number marker test `/\b[A-Z]{2,}\d{4,}\b|\b\d{5,}-[A-Z\d]+\b/.test(content)`. -/
def hasPartNumbersCheck (content : String) : Bool :=
  scanTest (fun p s => matchPartNum1 p s || matchPartNum2 p s) none content.data

/-- Match of `\b\d+\s*(ft-lb|nm|lb-ft|newton|torque)\b` (case-insensitive) at
the head of `s`. -/
def matchTorque (prev : Option Char) (s : List Char) : Bool :=
  prevNonWord prev &&
  (let digs := s.takeWhile Char.isDigit
   decide (digs.length ≥ 1) &&
   (let rest := s.drop digs.length
    let sp := rest.takeWhile jsIsWs
    let w := rest.drop sp.length
    ["ft-lb", "nm", "lb-ft", "newton", "torque"].any (fun u =>
      ciPrefix u.data w &&
        (match (w.drop u.length).head? with
         | none => true
         | some c => ¬ isWordChar c))))

/-- The torque-spec marker test `/\b\d+\s*(ft-lb|nm|lb-ft|newton|torque)\b/i.test(content)`. -/
def hasTorqueSpecsCheck (content : String) : Bool :=
  scanTest matchTorque none content.data

/-- The image marker test `/<img\s/i.test(html)`. -/
def hasImagesCheck (html : String) : Bool :=
  scanTest
    (fun _ s =>
      ciPrefix "<img".data s &&
        (match (s.drop 4).head? with
         | some c => jsIsWs c
         | none => false))
    none html.data

/-- Match of `<title[^>]*>([^<]+)<\/title>` (case-insensitive) at the head of
`s`, returning the captured group. -/
def matchTitleAt (s : List Char) : Option (List Char) :=
  if ciPrefix "<title".data s then
    let rest := s.drop 6
    let attrs := rest.takeWhile (· ≠ '>')
    if attrs.length < rest.length then
      let afterOpen := rest.drop (attrs.length + 1)
      let inner := afterOpen.takeWhile (· ≠ '<')
      if 0 < inner.length ∧ ciPrefix "</title>".data (afterOpen.drop inner.length)
      then some inner else none
    else none
  else none

/-- Earliest `<title>` match in the text. -/
def extractTitleGo : List Char → Option (List Char)
  | [] => none
  | c :: cs =>
    match matchTitleAt (c :: cs) with
    | some g => some g
    | none => extractTitleGo cs

namespace DocumentCrawlerService

/-- Title extraction `extractTitle`: the first `<title>` element's text,
trimmed, or `Untitled`. -/
def extractTitle (html : String) : String :=
  match extractTitleGo html.data with
  | some g => jsTrimS (String.mk g)
  | none => "Untitled"

/-- Content-type classification `classifyContent`, by domain and keyword
heuristics. -/
def classifyContent (source content : String) : CrawlContentType :=
  if jsIncludes source "ifixit" || jsIncludes source "repairclinic" then .manual
  else if jsIncludes source "forum" || jsIncludes source "talk"
      || jsIncludes content "posted by" then .forum
  else if jsIncludes source "parts" || jsIncludes source "catalog" then .parts_catalog
  else if jsIncludes content "transcript" || jsIncludes source "youtube" then .video_transcript
  else .article

end DocumentCrawlerService

/-! ## The crawler -/

/-- A candidate page produced by Source Discovery, the `CrawlTarget` record. -/
structure CrawlTarget where
  url : String
  title : String
  snippet : String
  source : String
  relevanceScore : ℝ

/-- An HTTP response as seen by `crawlUrl` after `fetch` resolved. -/
structure HttpResponse where
  ok : Bool
  status : Nat
  contentType : String
  body : String

/-- Lookup in the crawl cache, keyed by URL. -/
def cacheLookup (cache : List (String × CrawledDocument)) (url : String) :
    Option CrawledDocument :=
  (cache.find? (fun p => p.1 = url)).map (·.2)

/-- JavaScript `s.slice(0, n)` for a natural bound. -/
def jsSliceTo (s : String) (n : Nat) : String := String.mk (s.data.take n)

namespace DocumentCrawlerService

/-- The page fetcher `crawlUrl`.  The network fetch and the language-model
distillation are oracles: `response` is the HTTP response (`none` when the
fetch threw, e.g. on timeout) and `cleaned` is the result of
`cleanContentWithGemini` (`none` when distillation failed, returned a
non-OK status, or signalled `NOT_RELEVANT`).  Returns the crawled document
(or `none` on any rejection) together with the updated crawl cache. -/
def crawlUrl (crawlCache : List (String × CrawledDocument)) (target : CrawlTarget)
    (response : Option HttpResponse) (cleaned : Option String) (now : String) :
    Option CrawledDocument × List (String × CrawledDocument) :=
  match cacheLookup crawlCache target.url with
  | some doc => (some doc, crawlCache)
  | none =>
    match response with
    | none => (none, crawlCache)
    | some resp =>
      if ¬ resp.ok then (none, crawlCache)
      else if ¬ (jsIncludes resp.contentType "text/html"
          || jsIncludes resp.contentType "text/plain") then (none, crawlCache)
      else
        let html := resp.body
        if html.length < 500 then (none, crawlCache)
        else
          let rawText := extractTextFromHtml html
          if rawText.length < 200 then (none, crawlCache)
          else
            let content :=
              match cleaned with
              | some c => if c.length = 0 then jsSliceTo rawText 15000 else c
              | none => jsSliceTo rawText 15000
            let doc : CrawledDocument :=
              { url := target.url
                title := if target.title.length > 0 then target.title else extractTitle html
                content := content
                contentType := classifyContent target.source content
                extractedAt := now
                metadata :=
                  { source := target.source
                    wordCount := (jsSplitWs content).length
                    hasImages := hasImagesCheck html
                    hasPartNumbers := hasPartNumbersCheck content
                    hasTorqueSpecs := hasTorqueSpecsCheck content } }
            (some doc, crawlCache ++ [(target.url, doc)])

end DocumentCrawlerService

/-! ## Embeddings and cosine similarity -/

/-- Sum of coordinate-wise products, the accumulator `dotProduct` of the two
cosine-similarity loops (both loops also reuse it for the squared norms). -/
def dotProduct (a b : List ℝ) : ℝ :=
  ((a.zip b).map (fun p => p.1 * p.2)).sum

namespace DocumentCrawlerService

/-- The crawler's `cosineSimilarity`: mismatched lengths or empty vectors give
0; a zero denominator is guarded and gives 0 instead of dividing by zero. -/
noncomputable def cosineSimilarity (a b : List ℝ) : ℝ :=
  if a.length ≠ b.length ∨ a.length = 0 then 0
  else
    let dp := dotProduct a b
    let normA := dotProduct a a
    let normB := dotProduct b b
    let denominator := Real.sqrt normA * Real.sqrt normB
    if denominator = 0 then 0 else dp / denominator

end DocumentCrawlerService

/-- Resolved RAG configuration, `Required<RAGConfig>`. -/
structure RAGConfigR where
  chunkSize : Nat
  chunkOverlap : Nat
  embeddingModel : String
  embeddingDimensions : Nat
  topK : Nat
  minScore : ℝ

/-- The `DEFAULT_CONFIG` of the RAG service. -/
noncomputable def DEFAULT_CONFIG : RAGConfigR :=
  { chunkSize := 1000
    chunkOverlap := 200
    embeddingModel := "text-embedding-004"
    embeddingDimensions := 768
    topK := 5
    minScore := 0.5 }

/-- A chunk of the RAG service's custom vector store, the `ChunkedDocument`
record (the free-form `metadata` map is not modelled; its fixed entries
`chunkIndex`, `startChar`, `endChar` appear in `RagChunk` below). -/
structure ChunkedDocument where
  id : String
  documentId : String
  content : String
  embedding : Option (List ℝ) := none

/-- A scored search hit, the `SearchResult` record.  The score is `none` when
the JavaScript number would not be finite. -/
structure SearchResult where
  document : ChunkedDocument
  score : Option ℝ

/-- One embedding request sent to the embedding endpoint; `taskType`
distinguishes document-mode from query-mode embeddings. -/
structure EmbedRequest where
  text : String
  taskType : String
  outputDimensionality : Nat
deriving DecidableEq, Repr

namespace RAGService

/-- The RAG service's `cosineSimilarity`: mismatched lengths throw; there is
no zero-denominator guard, so two vectors whose norms multiply to zero give
the non-finite JavaScript result of dividing by zero (`none`; it is `NaN`
there, because the numerator is also zero whenever the denominator is). -/
noncomputable def cosineSimilarity (a b : List ℝ) : Except String (Option ℝ) :=
  if a.length ≠ b.length then .error "Vectors must have same length"
  else
    let dp := dotProduct a b
    let denominator := Real.sqrt (dotProduct a a) * Real.sqrt (dotProduct b b)
    if denominator = 0 then .ok none else .ok (some (dp / denominator))

/-- The batch of requests issued by `generateEmbeddings`: one request per
text, all with task type `RETRIEVAL_DOCUMENT`. -/
def generateEmbeddingsRequests (config : RAGConfigR) (texts : List String) :
    List EmbedRequest :=
  texts.map (fun text =>
    { text := text
      taskType := "RETRIEVAL_DOCUMENT"
      outputDimensionality := config.embeddingDimensions })

/-- The single request issued by `generateQueryEmbedding`, with task type
`RETRIEVAL_QUERY`. -/
def generateQueryEmbeddingRequest (config : RAGConfigR) (query : String) :
    EmbedRequest :=
  { text := query
    taskType := "RETRIEVAL_QUERY"
    outputDimensionality := config.embeddingDimensions }

/-- The filter condition `score >= this.config.minScore` of `searchChunks`:
a non-finite score fails the comparison, as `NaN >= x` does. -/
noncomputable def keepScore (minScore : ℝ) : Option ℝ → Bool
  | some v => decide (minScore ≤ v)
  | none => false

/-- The scan of `searchChunks`: score every chunk that has an embedding,
keeping those whose score passes the minimum; an exception from
`cosineSimilarity` propagates. -/
noncomputable def searchChunksGo (config : RAGConfigR) (queryEmbedding : List ℝ) :
    List ChunkedDocument → Except String (List SearchResult)
  | [] => .ok []
  | c :: cs =>
    match c.embedding with
    | none => searchChunksGo config queryEmbedding cs
    | some e =>
      match cosineSimilarity queryEmbedding e with
      | .error msg => .error msg
      | .ok s =>
        match searchChunksGo config queryEmbedding cs with
        | .error msg => .error msg
        | .ok rest =>
          .ok (if keepScore config.minScore s
               then { document := c, score := s } :: rest else rest)

/-- The retrieval `searchChunks`: filter by the minimum score, sort by score
descending, and keep the top `config.topK`.  Every surviving score is finite,
so the comparator's `getD` default is never consulted. -/
noncomputable def searchChunks (config : RAGConfigR) (queryEmbedding : List ℝ)
    (chunks : List ChunkedDocument) : Except String (List SearchResult) :=
  (searchChunksGo config queryEmbedding chunks).map (fun results =>
    (results.mergeSort
      (fun a b => decide ((b.score.getD 0) ≤ (a.score.getD 0)))).take config.topK)

end RAGService

/-! ## The in-memory document store and its retrieval -/

/-- A retrieval hit returned by `queryDocuments`: the chunk text, its source
URL, and its similarity score. -/
structure RetrievedResult where
  content : String
  source : String
  score : ℝ

namespace DocumentCrawlerService

/-- Query-side embedding requests issued by `queryDocuments`: the source calls
`this.ragService.generateEmbeddings([query])` on a service constructed with
the default configuration. -/
noncomputable def queryDocumentsEmbedRequests (query : String) : List EmbedRequest :=
  RAGService.generateEmbeddingsRequests DEFAULT_CONFIG [query]

/-- The store retrieval `queryDocuments`, given the query embedding the
oracle returned for the single request above: score every chunk of the store
(a missing chunk embedding becomes the empty vector), sort descending, keep
the top `topK`, and pair each hit with its document URL and score. -/
noncomputable def queryDocuments (documentStore : String → Option (List DocumentChunk))
    (storeId : String) (queryEmbedding : List ℝ) (topK : Nat := 5) :
    List RetrievedResult :=
  match documentStore storeId with
  | none => []
  | some chunks =>
    if chunks.length = 0 then []
    else
      let scored := chunks.map
        (fun chunk => (chunk, cosineSimilarity queryEmbedding (chunk.embedding.getD [])))
      ((scored.mergeSort (fun a b => decide (b.2 ≤ a.2))).take topK).map
        (fun p => { content := p.1.content, source := p.1.documentUrl, score := p.2 })

/-- The store query `hasDocuments`. -/
def hasDocuments (documentStore : String → Option (List DocumentChunk))
    (storeId : String) : Bool :=
  match documentStore storeId with
  | none => false
  | some chunks => decide (chunks.length > 0)

end DocumentCrawlerService

/-! ## The embedding indexer and ingestion -/

/-- Attach the embeddings of one batch response to the chunks of the batch,
position by position; a missing response row leaves the chunk unembedded. -/
def attachEmbeddings : List DocumentChunk → List (List ℝ) → List DocumentChunk
  | [], _ => []
  | c :: cs, es => { c with embedding := es.head? } :: attachEmbeddings cs (es.drop 1)

namespace DocumentCrawlerService

/-- The batch loop of `embedAndStore`: embed the chunk contents in batches of
10 through the embedding oracle and attach each embedding to its chunk. -/
def embedBatchesGo (embed : List String → List (List ℝ)) :
    List DocumentChunk → List DocumentChunk
  | [] => []
  | c :: cs =>
    let batch := (c :: cs).take 10
    let embeddings := embed (batch.map (·.content))
    attachEmbeddings batch embeddings ++ embedBatchesGo embed ((c :: cs).drop 10)
termination_by l => l.length
decreasing_by simp only [List.length_cons, List.length_drop]; omega

/-- The indexer `embedAndStore`: after embedding the batch, the store entry
for `storeId` is set to the embedded batch (`documentStore.set`); the entry is
created when absent and overwritten when present. -/
def embedAndStore (documentStore : String → Option (List DocumentChunk))
    (embed : List String → List (List ℝ)) (chunks : List DocumentChunk)
    (storeId : String) : String → Option (List DocumentChunk) :=
  let embeddedChunks := embedBatchesGo embed chunks
  fun sid => if sid = storeId then some embeddedChunks else documentStore sid

/-- The embedding requests issued by `embedAndStore` over its batches, all in
document mode through `generateEmbeddings`. -/
noncomputable def embedAndStoreEmbedRequests : List DocumentChunk → List EmbedRequest
  | [] => []
  | c :: cs =>
    RAGService.generateEmbeddingsRequests DEFAULT_CONFIG
        (((c :: cs).take 10).map (·.content)) ++
      embedAndStoreEmbedRequests ((c :: cs).drop 10)
termination_by l => l.length
decreasing_by simp only [List.length_cons, List.length_drop]; omega

end DocumentCrawlerService

/-- Character-wise lower-casing, JavaScript `toLowerCase` on ASCII text. -/
def jsToLower (s : String) : String := String.mk (s.data.map Char.toLower)

/-- The replacement `.replace(/\s+/g, '-')`: collapse each whitespace run to
a single space first, then turn each space into a dash. -/
def collapseWsToDash (s : String) : String :=
  String.mk ((collapseWs s.data).map (fun c => if c = ' ' then '-' else c))

namespace DocumentCrawlerService

/-- The store-id generator `generateStoreId`: join the present, non-empty
equipment fields with dashes, lower-case, replace whitespace runs by dashes,
and suffix the current timestamp (`Date.now()`, passed in as `now`). -/
def generateStoreId (query : EquipmentQuery) (now : Nat) : String :=
  let parts := String.intercalate "-"
    (([some query.type, query.make, query.model, query.year].filterMap id).filter
      (fun s => s.length > 0))
  "equipment-" ++ collapseWsToDash (jsToLower parts) ++ "-" ++ toString now

end DocumentCrawlerService

/-! ## Source discovery -/

/-- An entry of the trusted-source weight table. -/
structure TrustedSource where
  domain : String
  weight : ℝ
  type : CrawlContentType

namespace DocumentCrawlerService

/-- Trusted sources for the `vehicles` equipment type. -/
noncomputable def TRUSTED_SOURCES_vehicles : List TrustedSource :=
  [⟨"repairpal.com", 0.9, .article⟩,
   ⟨"yourmechanic.com", 0.85, .article⟩,
   ⟨"carcomplaints.com", 0.8, .forum⟩,
   ⟨"autoblog.com", 0.75, .article⟩,
   ⟨"nhtsa.gov", 0.95, .manual⟩,
   ⟨"2carpros.com", 0.7, .forum⟩,
   ⟨"justanswer.com", 0.6, .forum⟩,
   ⟨"fixya.com", 0.6, .forum⟩]

/-- Trusted sources for the `appliances` equipment type. -/
noncomputable def TRUSTED_SOURCES_appliances : List TrustedSource :=
  [⟨"repairclinic.com", 0.95, .manual⟩,
   ⟨"partselect.com", 0.9, .manual⟩,
   ⟨"applianceassistant.com", 0.85, .article⟩,
   ⟨"fixya.com", 0.7, .forum⟩,
   ⟨"appliancepartspros.com", 0.85, .parts_catalog⟩]

/-- Trusted sources for the `hvac` equipment type. -/
noncomputable def TRUSTED_SOURCES_hvac : List TrustedSource :=
  [⟨"hvac-talk.com", 0.8, .forum⟩,
   ⟨"achrn.com", 0.85, .article⟩,
   ⟨"grainger.com", 0.75, .parts_catalog⟩,
   ⟨"supplyhouse.com", 0.8, .parts_catalog⟩]

/-- Trusted sources of the `general` table, always appended. -/
noncomputable def TRUSTED_SOURCES_general : List TrustedSource :=
  [⟨"ifixit.com", 0.95, .manual⟩,
   ⟨"familyhandyman.com", 0.85, .article⟩,
   ⟨"thisoldhouse.com", 0.8, .article⟩,
   ⟨"homedepot.com", 0.7, .article⟩,
   ⟨"lowes.com", 0.7, .article⟩]

/-- Per-type trusted-source lookup, `TRUSTED_SOURCES[equipmentType] || []`. -/
noncomputable def trustedSourcesFor (t : String) : List TrustedSource :=
  if t = "vehicles" then TRUSTED_SOURCES_vehicles
  else if t = "appliances" then TRUSTED_SOURCES_appliances
  else if t = "hvac" then TRUSTED_SOURCES_hvac
  else if t = "general" then TRUSTED_SOURCES_general
  else []

/-- The relevance rescoring `adjustScoreBySource`: blend the static weight of
a matching trusted domain with the engine signal plus a fixed bonus, or
discount an unknown domain. -/
noncomputable def adjustScoreBySource (target : CrawlTarget) (equipmentType : String) : ℝ :=
  let sources := trustedSourcesFor equipmentType ++ TRUSTED_SOURCES_general
  match sources.find? (fun s => jsIncludes target.source s.domain) with
  | some s => target.relevanceScore * s.weight + 0.3
  | none => target.relevanceScore * 0.7

end DocumentCrawlerService

/-- Deduplication of crawl targets by URL, first occurrence winning. -/
def dedupByUrl : List CrawlTarget → List String → List CrawlTarget
  | [], _ => []
  | t :: ts, seen =>
    if t.url ∈ seen then dedupByUrl ts seen
    else t :: dedupByUrl ts (t.url :: seen)

namespace DocumentCrawlerService

/-- The source-discovery aggregation `findRelevantUrls`, given the per-query
search results through the `search` oracle.  Queries are dispatched in
batches of three concurrently, but the results are concatenated in query
order, so the aggregation is the flat concatenation: deduplicate by URL,
rescore by trusted source, sort by relevance descending, keep the top 15. -/
noncomputable def findRelevantUrls (search : String → List CrawlTarget)
    (queries : List String) (equipmentType : String) : List CrawlTarget :=
  let allTargets := (dedupByUrl (queries.flatMap search) []).map
    (fun t => { t with relevanceScore := adjustScoreBySource t equipmentType })
  (allTargets.mergeSort
    (fun a b => decide (b.relevanceScore ≤ a.relevanceScore))).take 15

end DocumentCrawlerService

/-- The result record of one ingestion run, `IngestionResult`. -/
structure IngestionResult where
  success : Bool
  documentsFound : Nat
  documentsCrawled : Nat
  chunksCreated : Nat
  storeId : Option String := none
  errors : List String
  processingTime : Nat

namespace DocumentCrawlerService

/-- The ingestion entry point `ingestForEquipment`, with the network stages as
oracles: `search` yields the discovery results per query, `crawl` yields the
crawled document per target (`none` both for a `null` return and for a
thrown per-URL error, whose message string is not modelled), and `embed`
yields the embedding batches.  `now` is `Date.now()` at store-id generation
and `elapsed` the measured processing time.  Returns the ingestion result and
the updated document store. -/
noncomputable def ingestForEquipment (search : String → List CrawlTarget)
    (crawl : CrawlTarget → Option CrawledDocument)
    (embed : List String → List (List ℝ))
    (documentStore : String → Option (List DocumentChunk))
    (query : EquipmentQuery) (now elapsed : Nat) :
    IngestionResult × (String → Option (List DocumentChunk)) :=
  let searchQueries := generateSearchQueries query
  let targets := findRelevantUrls search searchQueries query.type
  if targets.length = 0 then
    ({ success := false
       documentsFound := 0
       documentsCrawled := 0
       chunksCreated := 0
       errors := ["No relevant documents found"]
       processingTime := elapsed }, documentStore)
  else
    let crawledDocs := (targets.take 10).filterMap crawl
    let allChunks := crawledDocs.flatMap chunkDocument
    let storeId := generateStoreId query now
    let newStore := embedAndStore documentStore embed allChunks storeId
    ({ success := true
       documentsFound := targets.length
       documentsCrawled := crawledDocs.length
       chunksCreated := allChunks.length
       storeId := some storeId
       errors := []
       processingTime := elapsed }, newStore)

end DocumentCrawlerService

namespace DocumentCrawlerService

/-- The context assembly `getContextForDiagnosis`: the top-10 retrieval hits
for the diagnosis query, rendered with numbered source headers, or the empty
string when there are none. -/
noncomputable def getContextForDiagnosis (documentStore : String → Option (List DocumentChunk))
    (storeId : String) (queryEmbedding : List ℝ) : String :=
  let results := queryDocuments documentStore storeId queryEmbedding 10
  if results.length = 0 then ""
  else
    let contextParts := results.enum.map (fun p =>
      "[Source " ++ toString (p.1 + 1) ++ ": " ++ p.2.source ++ "]\n" ++ p.2.content)
    "TECHNICAL DOCUMENTATION:\n\n" ++ String.intercalate "\n\n---\n\n" contextParts

end DocumentCrawlerService

/-! ## The listen-and-fix orchestrator -/

/-- The structured diagnosis returned by the multimodal diagnosis call. -/
structure Diagnosis where
  primaryDiagnosis : String
  confidence : ℝ
  severity : String
  symptoms : List String
  possibleCauses : List String
  requiresExpertReview : Bool

namespace ListenFixRoute

/-- The query of the targeted re-ingestion (step 3b of the route): the first
crawl query augmented with the diagnosed fault and the joined symptom list. -/
def targetedCrawlQuery (crawlQuery : EquipmentQuery) (diagnosis : Diagnosis) :
    EquipmentQuery :=
  { crawlQuery with
    diagnosis := some diagnosis.primaryDiagnosis
    symptom := some (String.intercalate ", " diagnosis.symptoms) }

/-- Step 3 of the route `POST` handler after the first crawl settles: when the
first run created fewer than 5 chunks and a (truthy, i.e. non-empty)
diagnosis exists, run one targeted re-ingestion through the `ingest` oracle
and keep its store id only when it created strictly more chunks.  Returns the
list of targeted ingestion calls made and the current store id. -/
def targetedRecrawlStep (crawlQuery : EquipmentQuery) (crawlResult : IngestionResult)
    (diagnosis : Diagnosis) (ingest : EquipmentQuery → IngestionResult) :
    List EquipmentQuery × Option String :=
  if crawlResult.chunksCreated < 5 ∧ diagnosis.primaryDiagnosis.length > 0 then
    let tq := targetedCrawlQuery crawlQuery diagnosis
    let targetedCrawl := ingest tq
    ([tq],
     if targetedCrawl.chunksCreated > crawlResult.chunksCreated
     then targetedCrawl.storeId else crawlResult.storeId)
  else ([], crawlResult.storeId)

/-- Step 4 of the route: query the current store when it exists and holds
documents, then supplement with the web-search summary (`searchContext`)
whenever the technical context stays under 500 characters, concatenated with
the section delimiter; an empty context is replaced outright. -/
def retrievalContext (storeId : Option String) (hasDocs : String → Bool)
    (getContext : String → String) (searchContext : String) : String :=
  let technicalContext :=
    match storeId with
    | some sid => if sid.length > 0 ∧ hasDocs sid then getContext sid else ""
    | none => ""
  if technicalContext.length < 500 then
    if technicalContext.length > 0 then
      technicalContext ++ "\n\n---\n\nADDITIONAL WEB SEARCH RESULTS:\n" ++ searchContext
    else searchContext
  else technicalContext

end ListenFixRoute

/-! ## The RAG service's own chunker -/

/-- A document fed to the RAG service's chunker, the `Document` record (the
free-form `metadata` map is not modelled). -/
structure RagDocument where
  id : String
  content : String

/-- A chunk produced by the RAG service's chunker, with the fixed metadata
entries inlined. -/
structure RagChunk where
  id : String
  documentId : String
  content : String
  chunkIndex : Nat
  startChar : Int
  endChar : Int
deriving DecidableEq, Repr

/-- JavaScript `s.slice(a, b)` with signed indices: negative indices count
from the end, and both are clamped to the string. -/
def jsSliceInt (s : String) (a b : Int) : String :=
  let n : Int := s.length
  let lo := if a < 0 then max (n + a) 0 else min a n
  let hi := if b < 0 then max (n + b) 0 else min b n
  String.mk ((s.data.take hi.toNat).drop lo.toNat)

/-- JavaScript `s.lastIndexOf(pat, position)`: the largest start index not
beyond the clamped position where `pat` occurs, or `-1`. -/
def jsLastIndexOf (s pat : String) (position : Int) : Int :=
  ((List.range (s.length + 1)).filter (fun (i : Nat) =>
      decide ((i : Int) ≤ max position 0) && pat.data.isPrefixOf (s.data.drop i))).foldl
    (fun (a : Int) (i : Nat) => max a (i : Int)) (-1)

namespace RAGService

/-- The break-point computation of one `chunkDocument` iteration: cap the
chunk at `chunkSize` characters, preferring the latest sentence end (or,
failing that, paragraph end) in the second half of the window. -/
def ragChunkEnd (content : String) (chunkSize : Nat) (start : Int) : Int :=
  let len : Int := content.length
  let e0 := min (start + chunkSize) len
  if e0 < len then
    let sentenceEnd := jsLastIndexOf content "." e0
    if sentenceEnd > start + chunkSize / 2 then sentenceEnd + 1
    else
      let paragraphEnd := jsLastIndexOf content "\n\n" e0
      if paragraphEnd > start + chunkSize / 2 then paragraphEnd + 2
      else e0
  else e0

/-- The `while (start < content.length)` loop of the RAG service's
`chunkDocument`, instrumented with fuel: each iteration emits the slice
`[start, end)` and continues at `start = end - overlap`.  `none` means the
loop had not terminated after `fuel` iterations. -/
def ragChunkLoop (docId docContent : String) (chunkSize overlap : Nat) :
    Nat → Int → Nat → List RagChunk → Option (List RagChunk)
  | 0, _, _, _ => none
  | fuel + 1, start, chunkIndex, acc =>
    if start < (docContent.length : Int) then
      let e := ragChunkEnd docContent chunkSize start
      let chunk : RagChunk :=
        { id := docId ++ "_chunk_" ++ toString chunkIndex
          documentId := docId
          content := jsTrimS (jsSliceInt docContent start e)
          chunkIndex := chunkIndex
          startChar := start
          endChar := e }
      ragChunkLoop docId docContent chunkSize overlap fuel
        (e - overlap) (chunkIndex + 1) (acc ++ [chunk])
    else some acc

/-- The RAG service's `chunkDocument`, run with `fuel` loop iterations
allowed; `none` means the loop was still running when the fuel ran out. -/
def chunkDocument (doc : RagDocument) (config : RAGConfigR) (fuel : Nat) :
    Option (List RagChunk) :=
  ragChunkLoop doc.id doc.content config.chunkSize config.chunkOverlap fuel 0 0 []

end RAGService

/-! ## Concrete example inputs used by witnesses and counterexamples -/

/-- A stored chunk present before an indexing call. -/
def exChunkOld : DocumentChunk :=
  { id := "old-0", documentUrl := "https://a.example/doc", content := "old content",
    chunkIndex := 0, title := "Old", source := "a.example" }

/-- A freshly chunked passage handed to an indexing call. -/
def exChunkNew : DocumentChunk :=
  { id := "new-0", documentUrl := "https://b.example/doc", content := "new content",
    chunkIndex := 0, title := "New", source := "b.example" }

/-- A document store already holding `exChunkOld` under `store-a`. -/
def exStoreC9 : String → Option (List DocumentChunk) :=
  fun sid => if sid = "store-a" then some [exChunkOld] else none

/-- A stored chunk with a one-dimensional embedding. -/
noncomputable def exChunkC1 : DocumentChunk :=
  { id := "x-0", documentUrl := "https://c.example/doc", content := "cv joint text",
    chunkIndex := 0, embedding := some [(1 : ℝ)], title := "C", source := "c.example" }

/-- A document store holding the single embedded chunk under `store-c`. -/
noncomputable def exStoreC1 : String → Option (List DocumentChunk) :=
  fun sid => if sid = "store-c" then some [exChunkC1] else none

/-- A small crawled document. -/
def exDoc : CrawledDocument :=
  { url := "https://a.example/doc", title := "Example",
    content := "first paragraph about the repair\n\nsecond paragraph with more repair detail",
    contentType := .article, extractedAt := "2024-01-01",
    metadata := { source := "a.example", wordCount := 11, hasImages := false,
                  hasPartNumbers := false, hasTorqueSpecs := false } }

/-- A chunk with its embedding forgotten, used to compare indexed chunks with
their pre-indexing versions. -/
def chunkSansEmbedding (c : DocumentChunk) : DocumentChunk :=
  { c with embedding := none }

/-! ## Helper lemmas -/

/-- Unfolding lemma for `countNonWs` on a cons cell. -/
theorem countNonWs_cons (c : Char) (l : List Char) :
    countNonWs (c :: l) = (if jsIsWs c then 0 else 1) + countNonWs l := by
  by_cases h : jsIsWs c
  · simp [countNonWs, List.filter, h]
  · simp [countNonWs, List.filter, h]
    omega

/-- Whitespace-to-space mapping preserves the non-whitespace count. -/
theorem countNonWs_map_wsToSpace (l : List Char) :
    countNonWs (l.map (fun c => if jsIsWs c then ' ' else c)) = countNonWs l := by
  induction l with
  | nil => rfl
  | cons c cs ih =>
    by_cases h : jsIsWs c
    · have hsp : jsIsWs ' ' = true := by decide
      simp [List.map, countNonWs_cons, h, hsp, ih]
    · simp [List.map, countNonWs_cons, h, ih]

/-- Space squeezing preserves the non-whitespace count. -/
theorem countNonWs_squeezeSpaces (l : List Char) :
    countNonWs (squeezeSpaces l) = countNonWs l := by
  induction l using squeezeSpaces.induct with
  | case1 => rfl
  | case2 c => rfl
  | case3 a b rest h ih =>
    rw [squeezeSpaces, if_pos h, ih, h.1]
    simp [countNonWs_cons, jsIsWs]
  | case4 a b rest h ih =>
    rw [squeezeSpaces, if_neg h]
    simp [countNonWs_cons, ih]

/-- Whitespace collapsing preserves the non-whitespace count. -/
theorem countNonWs_collapseWs (l : List Char) :
    countNonWs (collapseWs l) = countNonWs l := by
  rw [collapseWs, countNonWs_squeezeSpaces, countNonWs_map_wsToSpace]

/-- Dropping a whitespace prefix preserves the non-whitespace count. -/
theorem countNonWs_dropWhileWs (l : List Char) :
    countNonWs (l.dropWhile jsIsWs) = countNonWs l := by
  induction l with
  | nil => rfl
  | cons c cs ih =>
    by_cases h : jsIsWs c
    · rw [List.dropWhile_cons_of_pos h, ih, countNonWs_cons, h]; simp
    · rw [List.dropWhile_cons_of_neg h]

/-- Reversal preserves the non-whitespace count. -/
theorem countNonWs_reverse (l : List Char) :
    countNonWs l.reverse = countNonWs l := by
  simp [countNonWs, List.filter_reverse]

/-- Trimming preserves the non-whitespace count. -/
theorem countNonWs_jsTrimL (l : List Char) :
    countNonWs (jsTrimL l) = countNonWs l := by
  rw [jsTrimL, countNonWs_reverse, countNonWs_dropWhileWs, countNonWs_reverse,
    countNonWs_dropWhileWs]

/-- The non-whitespace count bounds the length from below. -/
theorem countNonWs_le_length (l : List Char) : countNonWs l ≤ l.length :=
  List.length_filter_le _ l

/-- The non-whitespace count is additive over concatenation. -/
theorem countNonWs_append (a b : List Char) :
    countNonWs (a ++ b) = countNonWs a + countNonWs b := by
  simp [countNonWs, List.filter_append]

/-- A pattern that contains a closing brace can only be a prefix of a list
that contains one. -/
theorem brace_mem_of_isPrefixOf {pat s : List Char}
    (hp : pat.isPrefixOf s = true) (hb : '}' ∈ pat) : '}' ∈ s := by
  rw [List.isPrefixOf_iff_prefix] at hp
  obtain ⟨t, ht⟩ := hp
  rw [← ht]
  exact List.mem_append.mpr (Or.inl hb)

/-- Replacement with a brace-bearing pattern leaves a brace-free list alone. -/
theorem replaceFirstAux_no_brace {pat : List Char} (rep : List Char)
    (hb : '}' ∈ pat) : ∀ {s : List Char}, '}' ∉ s → replaceFirstAux pat rep s = s := by
  intro s
  induction s with
  | nil => intro _; rfl
  | cons c cs ih =>
    intro hns
    have hnp : ¬ pat.isPrefixOf (c :: cs) = true :=
      fun hp => hns (brace_mem_of_isPrefixOf hp hb)
    rw [replaceFirstAux, if_neg hnp, ih (fun hm => hns (List.mem_cons_of_mem c hm))]

/-- Replacement with a pattern ending in a closing brace cannot touch a
brace-free suffix: the suffix survives the replacement verbatim. -/
theorem replaceFirstAux_append_suffix {pat : List Char} (rep : List Char)
    {suf : List Char} (hlast : pat.getLast? = some '}') (hns : '}' ∉ suf) :
    ∀ l : List Char, ∃ l2, replaceFirstAux pat rep (l ++ suf) = l2 ++ suf := by
  have hb : '}' ∈ pat := by
    obtain ⟨ys, hys⟩ := List.getLast?_eq_some_iff.mp hlast
    rw [hys]
    exact List.mem_append.mpr (Or.inr (List.mem_singleton.mpr rfl))
  intro l
  induction l with
  | nil => exact ⟨[], by simpa using replaceFirstAux_no_brace rep hb hns⟩
  | cons c l' ih =>
    by_cases hp : pat.isPrefixOf ((c :: l') ++ suf) = true
    · have hlen : pat.length ≤ (c :: l').length := by
        by_contra hgt
        push_neg at hgt
        rw [List.isPrefixOf_iff_prefix] at hp
        obtain ⟨t, ht⟩ := hp
        set L := c :: l' with hL
        have hk : pat.length = L.length + (pat.length - L.length) := by omega
        have hpat : pat = L ++ suf.take (pat.length - L.length) := by
          have h2 : List.take pat.length (L ++ suf) =
              L ++ List.take (pat.length - L.length) suf := by
            conv_lhs => rw [hk]
            exact List.take_append _
          rw [← ht, List.take_left] at h2
          exact h2
        have hktake : suf.take (pat.length - L.length) ≠ [] := by
          intro hnil
          rw [hnil, List.append_nil] at hpat
          have := congrArg List.length hpat
          omega
        have hlastsuf : (suf.take (pat.length - L.length)).getLast? = some '}' := by
          rw [hpat, List.getLast?_append_of_ne_nil L hktake] at hlast
          exact hlast
        obtain ⟨ys, hys⟩ := List.getLast?_eq_some_iff.mp hlastsuf
        have hmem : '}' ∈ suf.take (pat.length - L.length) := by
          rw [hys]
          exact List.mem_append.mpr (Or.inr (List.mem_singleton.mpr rfl))
        exact hns ((List.take_sublist _ _).subset hmem)
      refine ⟨rep ++ (c :: l').drop pat.length, ?_⟩
      rw [List.cons_append, replaceFirstAux, if_pos (by simpa using hp)]
      rw [← List.cons_append, List.drop_append_of_le_length hlen]
      simp [List.append_assoc]
    · obtain ⟨l2, hl2⟩ := ih
      refine ⟨c :: l2, ?_⟩
      rw [List.cons_append, replaceFirstAux, if_neg (by simpa using hp), hl2]
      rfl

/-- Members of the deduplicated list come from the original list. -/
theorem jsSetDedupGo_subset : ∀ (l seen : List String), ∀ x ∈ jsSetDedupGo l seen, x ∈ l := by
  intro l
  induction l with
  | nil => intro seen x hx; simp [jsSetDedupGo] at hx
  | cons y ys ih =>
    intro seen x hx
    rw [jsSetDedupGo] at hx
    by_cases hy : y ∈ seen
    · rw [if_pos hy] at hx
      exact List.mem_cons_of_mem y (ih _ x hx)
    · rw [if_neg hy] at hx
      rcases List.mem_cons.mp hx with h | h
      · exact h ▸ List.mem_cons_self y ys
      · exact List.mem_cons_of_mem y (ih _ x h)

/-- Deduplicating a nonempty list keeps its head. -/
theorem jsSetDedup_cons (x : String) (xs : List String) :
    jsSetDedup (x :: xs) = x :: jsSetDedupGo xs [x] := by
  simp [jsSetDedup, jsSetDedupGo]

/-- String-level version of the suffix survival: one placeholder replacement
keeps a brace-free suffix of the subject intact. -/
theorem replaceFirst_data_suffix {s : String} {l suf : List Char}
    (hs : s.data = l ++ suf) (pat rep : String)
    (hlast : pat.data.getLast? = some '}') (hns : '}' ∉ suf) :
    ∃ l2, (replaceFirst s pat rep).data = l2 ++ suf := by
  obtain ⟨l2, h2⟩ := replaceFirstAux_append_suffix rep.data hlast hns l
  refine ⟨l2, ?_⟩
  show replaceFirstAux pat.data rep.data s.data = l2 ++ suf
  rw [hs]
  exact h2

/-- The placeholder substitutions keep the literal tail of the first generic
template, so its substitution always has at least 11 non-whitespace
characters and survives the 10-character filter. -/
theorem substituteTemplate_first_general_length (query : EquipmentQuery) :
    10 < (DocumentCrawlerService.substituteTemplate query
      "{type} {symptom} repair guide").length := by
  have h0 : ("{type} {symptom} repair guide" : String).data =
      "{type} {symptom}".data ++ " repair guide".data := by decide
  have hns : '}' ∉ " repair guide".data := by decide
  obtain ⟨l1, h1⟩ := replaceFirst_data_suffix h0 "{type}" query.type (by decide) hns
  obtain ⟨l2, h2⟩ := replaceFirst_data_suffix h1 "{make}" (query.make.getD "") (by decide) hns
  obtain ⟨l3, h3⟩ := replaceFirst_data_suffix h2 "{model}" (query.model.getD "") (by decide) hns
  obtain ⟨l4, h4⟩ := replaceFirst_data_suffix h3 "{year}" (query.year.getD "") (by decide) hns
  obtain ⟨l5, h5⟩ := replaceFirst_data_suffix h4 "{symptom}" (query.symptom.getD "") (by decide) hns
  obtain ⟨l6, h6⟩ := replaceFirst_data_suffix h5 "{diagnosis}" (query.diagnosis.getD "") (by decide) hns
  show 10 < (jsTrimS (collapseWsS _)).length
  have hlen : ∀ x : String,
      countNonWs x.data ≤ (jsTrimS (collapseWsS x)).length := by
    intro x
    have : (jsTrimS (collapseWsS x)).length = (jsTrimL (collapseWs x.data)).length := rfl
    rw [this]
    calc countNonWs x.data = countNonWs (jsTrimL (collapseWs x.data)) := by
          rw [countNonWs_jsTrimL, countNonWs_collapseWs]
      _ ≤ (jsTrimL (collapseWs x.data)).length := countNonWs_le_length _
  refine lt_of_lt_of_le ?_ (hlen _)
  rw [h6, countNonWs_append]
  have : countNonWs " repair guide".data = 11 := by decide
  omega

/-- C8: for every equipment query whose category has no entry in the
search-template table, the Query Synthesizer falls back to the generic
template list (substituting the available fields, discarding results of at
most 10 characters and deduplicating by exact match), and whenever any
equipment field is present it still returns at least one query, all of them
non-empty. -/
theorem c8_query_synthesizer_generic_fallback (query : EquipmentQuery)
    (hcat : query.type ≠ "vehicles" ∧ query.type ≠ "appliances" ∧
      query.type ≠ "hvac" ∧ query.type ≠ "general")
    (_hfield : query.make ≠ none ∨ query.model ≠ none ∨ query.year ≠ none ∨
      query.symptom ≠ none ∨ query.diagnosis ≠ none ∨ query.type ≠ "") :
    DocumentCrawlerService.generateSearchQueries query =
      jsSetDedup ((DocumentCrawlerService.SEARCH_TEMPLATES_general.map
        (DocumentCrawlerService.substituteTemplate query)).filter
          (fun q => q.length > 10)) ∧
    DocumentCrawlerService.generateSearchQueries query ≠ [] ∧
    ∀ s ∈ DocumentCrawlerService.generateSearchQueries query, s ≠ "" := by
  obtain ⟨h1, h2, h3, h4⟩ := hcat
  have htempl : DocumentCrawlerService.searchTemplatesFor query.type =
      DocumentCrawlerService.SEARCH_TEMPLATES_general := by
    simp [DocumentCrawlerService.searchTemplatesFor, h1, h2, h3, h4]
  have hdef : DocumentCrawlerService.generateSearchQueries query =
      jsSetDedup ((DocumentCrawlerService.SEARCH_TEMPLATES_general.map
        (DocumentCrawlerService.substituteTemplate query)).filter
          (fun q => q.length > 10)) := by
    rw [DocumentCrawlerService.generateSearchQueries, htempl]
  have hq1 := substituteTemplate_first_general_length query
  refine ⟨hdef, ?_, ?_⟩
  · have hfil : (DocumentCrawlerService.SEARCH_TEMPLATES_general.map
        (DocumentCrawlerService.substituteTemplate query)).filter
          (fun q => q.length > 10) =
        DocumentCrawlerService.substituteTemplate query
            "{type} {symptom} repair guide" ::
          (["how to fix {type} {diagnosis}", "{make} {model} troubleshooting",
            "DIY {type} repair {symptom}"].map
              (DocumentCrawlerService.substituteTemplate query)).filter
            (fun q => q.length > 10) := by
      rw [DocumentCrawlerService.SEARCH_TEMPLATES_general, List.map_cons,
        List.filter_cons_of_pos (by exact decide_eq_true hq1)]
    rw [hdef, hfil, jsSetDedup_cons]
    exact List.cons_ne_nil _ _
  · intro s hs
    rw [hdef] at hs
    have hsin := jsSetDedupGo_subset _ [] s hs
    have hlen : s.length > 10 := by
      have := (List.mem_filter.mp hsin).2
      exact of_decide_eq_true this
    intro heq
    rw [heq] at hlen
    simp at hlen

/-- Witness for C8 at a concrete unrecognized category with a make present. -/
theorem c8_witness :
    DocumentCrawlerService.generateSearchQueries { type := "boat", make := some "Yamaha" } ≠ [] :=
  (c8_query_synthesizer_generic_fallback { type := "boat", make := some "Yamaha" }
    (by exact ⟨by decide, by decide, by decide, by decide⟩)
    (Or.inl (by simp))).2.1

/-- Once the loop variable of the RAG chunker reaches `-199` on a length-1
content, it reproduces itself forever: the loop never terminates. -/
theorem ragChunkLoop_stuck : ∀ (fuel chunkIndex : Nat) (acc : List RagChunk),
    RAGService.ragChunkLoop "doc1" "a" 1000 200 fuel (-199) chunkIndex acc = none := by
  intro fuel
  induction fuel with
  | zero => intro chunkIndex acc; rfl
  | succ n ih =>
    intro chunkIndex acc
    rw [RAGService.ragChunkLoop]
    have hcond : ((-199 : Int) < (("a" : String).length : Int)) := by decide
    rw [if_pos hcond]
    have hend : RAGService.ragChunkEnd "a" 1000 (-199) = 1 := by decide
    rw [hend]
    exact ih _ _

/-- C10: the RAG service's `chunkDocument` does not terminate on non-empty
content.  On the one-character document the first iteration emits the whole
content and sets `start = end - overlap = -199`, which stays below the
content length forever; with the default configuration the loop returns no
result no matter how much fuel it is given. -/
theorem c10_rag_chunkDocument_diverges (fuel : Nat) :
    RAGService.chunkDocument { id := "doc1", content := "a" } DEFAULT_CONFIG fuel = none := by
  cases fuel with
  | zero => rfl
  | succ n =>
    show RAGService.ragChunkLoop "doc1" "a" 1000 200 (n + 1) 0 0 [] = none
    rw [RAGService.ragChunkLoop]
    have hcond : ((0 : Int) < (("a" : String).length : Int)) := by decide
    rw [if_pos hcond]
    have hend : RAGService.ragChunkEnd "a" 1000 0 = 1 := by decide
    rw [hend]
    exact ragChunkLoop_stuck n _ _

/-- C3: when the first ingestion pass created fewer than 5 chunks and the
diagnosis succeeded (non-empty primary diagnosis), the orchestrator makes
exactly one targeted re-ingestion call, its query is augmented with the
diagnosed fault and the joined symptom list, and the targeted run's store
becomes current exactly when it yielded strictly more chunks than the first
run. -/
theorem c3_targeted_recrawl_once (crawlQuery : EquipmentQuery)
    (crawlResult : IngestionResult) (diagnosis : Diagnosis)
    (ingest : EquipmentQuery → IngestionResult)
    (hthin : crawlResult.chunksCreated < 5)
    (hdiag : diagnosis.primaryDiagnosis.length > 0) :
    (ListenFixRoute.targetedRecrawlStep crawlQuery crawlResult diagnosis ingest).1 =
      [ListenFixRoute.targetedCrawlQuery crawlQuery diagnosis] ∧
    (ListenFixRoute.targetedCrawlQuery crawlQuery diagnosis).diagnosis =
      some diagnosis.primaryDiagnosis ∧
    (ListenFixRoute.targetedCrawlQuery crawlQuery diagnosis).symptom =
      some (String.intercalate ", " diagnosis.symptoms) ∧
    (ListenFixRoute.targetedRecrawlStep crawlQuery crawlResult diagnosis ingest).2 =
      (if (ingest (ListenFixRoute.targetedCrawlQuery crawlQuery diagnosis)).chunksCreated >
            crawlResult.chunksCreated
        then (ingest (ListenFixRoute.targetedCrawlQuery crawlQuery diagnosis)).storeId
        else crawlResult.storeId) := by
  rw [ListenFixRoute.targetedRecrawlStep, if_pos ⟨hthin, hdiag⟩]
  exact ⟨rfl, rfl, rfl, rfl⟩

/-- Witness for C3 at a concrete thin first run and successful diagnosis. -/
theorem c3_witness :
    (ListenFixRoute.targetedRecrawlStep { type := "vehicles", make := some "Honda" }
        { success := true, documentsFound := 3, documentsCrawled := 2, chunksCreated := 2,
          storeId := some "store-1", errors := [], processingTime := 40 }
        { primaryDiagnosis := "worn CV joint", confidence := 1, severity := "high",
          symptoms := ["clicking noise"], possibleCauses := [],
          requiresExpertReview := false }
        (fun _ =>
          { success := true, documentsFound := 4, documentsCrawled := 3, chunksCreated := 7,
            storeId := some "store-2", errors := [], processingTime := 50 })).1 =
      [ListenFixRoute.targetedCrawlQuery { type := "vehicles", make := some "Honda" }
        { primaryDiagnosis := "worn CV joint", confidence := 1, severity := "high",
          symptoms := ["clicking noise"], possibleCauses := [],
          requiresExpertReview := false }] :=
  (c3_targeted_recrawl_once _ _ _ _ (by decide) (by decide)).1

/-- C7: when Source Discovery yields zero candidates for every synthesized
query, the ingestion returns a failed `IngestionResult` with zero counts and
no store id, leaves the document store untouched, and the orchestrator's
retrieval step then takes the web-search-supplement path (the final context is
exactly the web-search summary) instead of failing the request. -/
theorem c7_zero_candidates_fallback (search : String → List CrawlTarget)
    (crawl : CrawlTarget → Option CrawledDocument)
    (embed : List String → List (List ℝ))
    (documentStore : String → Option (List DocumentChunk))
    (query : EquipmentQuery) (now elapsed : Nat)
    (hasDocs : String → Bool) (getContext : String → String) (searchContext : String)
    (hzero : ∀ q ∈ DocumentCrawlerService.generateSearchQueries query, search q = []) :
    DocumentCrawlerService.ingestForEquipment search crawl embed documentStore
        query now elapsed =
      ({ success := false, documentsFound := 0, documentsCrawled := 0,
         chunksCreated := 0, storeId := none,
         errors := ["No relevant documents found"], processingTime := elapsed },
       documentStore) ∧
    ListenFixRoute.retrievalContext
      (DocumentCrawlerService.ingestForEquipment search crawl embed documentStore
        query now elapsed).1.storeId hasDocs getContext searchContext = searchContext := by
  have htargets : DocumentCrawlerService.findRelevantUrls search
      (DocumentCrawlerService.generateSearchQueries query) query.type = [] := by
    rw [DocumentCrawlerService.findRelevantUrls]
    have hfm : (DocumentCrawlerService.generateSearchQueries query).flatMap search = [] :=
      List.flatMap_eq_nil_iff.mpr hzero
    rw [hfm]
    simp [dedupByUrl, List.mergeSort_nil]
  have hresult : DocumentCrawlerService.ingestForEquipment search crawl embed
      documentStore query now elapsed =
      ({ success := false, documentsFound := 0, documentsCrawled := 0,
         chunksCreated := 0, storeId := none,
         errors := ["No relevant documents found"], processingTime := elapsed },
       documentStore) := by
    rw [DocumentCrawlerService.ingestForEquipment, htargets]
    rfl
  refine ⟨hresult, ?_⟩
  rw [hresult]
  show ListenFixRoute.retrievalContext none hasDocs getContext searchContext = searchContext
  rw [ListenFixRoute.retrievalContext]
  simp

/-- Witness for C7 with a discovery oracle that finds nothing. -/
theorem c7_witness :
    DocumentCrawlerService.ingestForEquipment (fun _ => []) (fun _ => none)
        (fun _ => []) (fun _ => none) { type := "vehicles" } 0 5 =
      ({ success := false, documentsFound := 0, documentsCrawled := 0,
         chunksCreated := 0, storeId := none,
         errors := ["No relevant documents found"], processingTime := 5 },
       (fun _ => none)) ∧
    ListenFixRoute.retrievalContext
      (DocumentCrawlerService.ingestForEquipment (fun _ => []) (fun _ => none)
        (fun _ => []) (fun _ => none) { type := "vehicles" } 0 5).1.storeId
      (fun _ => false) (fun _ => "") "WEB SEARCH SUMMARY" = "WEB SEARCH SUMMARY" :=
  c7_zero_candidates_fallback (fun _ => []) (fun _ => none) (fun _ => [])
    (fun _ => none) { type := "vehicles" } 0 5 (fun _ => false) (fun _ => "")
    "WEB SEARCH SUMMARY" (fun _ _ => rfl)

/-- Attaching embeddings changes only the embedding field of each chunk. -/
theorem attachEmbeddings_sans (batch : List DocumentChunk) :
    ∀ es : List (List ℝ),
      (attachEmbeddings batch es).map chunkSansEmbedding =
        batch.map chunkSansEmbedding := by
  induction batch with
  | nil => intro es; rfl
  | cons c cs ih =>
    intro es
    rw [attachEmbeddings, List.map_cons, List.map_cons, ih]
    rfl

/-- The batched embedding pass keeps every chunk's id, text, url, ordinal and
metadata, in order. -/
theorem embedBatchesGo_sans (embed : List String → List (List ℝ)) :
    ∀ chunks : List DocumentChunk,
      (DocumentCrawlerService.embedBatchesGo embed chunks).map chunkSansEmbedding =
        chunks.map chunkSansEmbedding := by
  intro chunks
  induction chunks using DocumentCrawlerService.embedBatchesGo.induct embed with
  | case1 => rw [DocumentCrawlerService.embedBatchesGo]
  | case2 c cs ih =>
    rw [DocumentCrawlerService.embedBatchesGo, List.map_append, attachEmbeddings_sans, ih,
      ← List.map_append, List.take_append_drop]

/-- C9 (amended): `embedAndStore` sets the target store to exactly the
embedded batch — replacing, not extending, the chunk list the store held
before — creating the store when absent, preserving each chunk's identity and
text, and leaving every other store unchanged. -/
theorem c9_embedAndStore_replaces_and_frames
    (documentStore : String → Option (List DocumentChunk))
    (embed : List String → List (List ℝ)) (chunks : List DocumentChunk)
    (storeId : String) :
    DocumentCrawlerService.embedAndStore documentStore embed chunks storeId storeId =
      some (DocumentCrawlerService.embedBatchesGo embed chunks) ∧
    (DocumentCrawlerService.embedBatchesGo embed chunks).map chunkSansEmbedding =
      chunks.map chunkSansEmbedding ∧
    ∀ sid, sid ≠ storeId →
      DocumentCrawlerService.embedAndStore documentStore embed chunks storeId sid =
        documentStore sid := by
  refine ⟨?_, embedBatchesGo_sans embed chunks, ?_⟩
  · rw [DocumentCrawlerService.embedAndStore]
    simp
  · intro sid hne
    rw [DocumentCrawlerService.embedAndStore]
    simp [hne]

/-- Witness for C9 at a concrete store, batch and distinct store id. -/
theorem c9_witness :
    DocumentCrawlerService.embedAndStore exStoreC9 (fun _ => []) [exChunkNew]
        "store-a" "store-a" =
      some (DocumentCrawlerService.embedBatchesGo (fun _ => []) [exChunkNew]) ∧
    DocumentCrawlerService.embedAndStore exStoreC9 (fun _ => []) [exChunkNew]
        "store-a" "store-b" = exStoreC9 "store-b" :=
  ⟨(c9_embedAndStore_replaces_and_frames exStoreC9 (fun _ => []) [exChunkNew] "store-a").1,
   (c9_embedAndStore_replaces_and_frames exStoreC9 (fun _ => []) [exChunkNew] "store-a").2.2
     "store-b" (by decide)⟩

/-- C9 (counterexample to the claim as stated): a chunk held by the store
before the indexing call is gone afterwards — `embedAndStore` does not append
to the store's existing chunk list, it overwrites it. -/
theorem c9_counterexample :
    exChunkOld ∈ (exStoreC9 "store-a").getD [] ∧
    exChunkOld ∉ (DocumentCrawlerService.embedAndStore exStoreC9 (fun _ => [])
      [exChunkNew] "store-a" "store-a").getD [] := by
  constructor
  · simp [exStoreC9]
  · rw [DocumentCrawlerService.embedAndStore]
    simp only [if_pos rfl]
    rw [DocumentCrawlerService.embedBatchesGo]
    intro hmem
    simp [attachEmbeddings, DocumentCrawlerService.embedBatchesGo,
      exChunkOld, exChunkNew] at hmem

/-- C2 (counterexample to the claim as stated): to rank stored passages,
`queryDocuments` embeds the query through `generateEmbeddings`, whose single
request carries the document task type, not the retrieval-query one. -/
theorem c2_counterexample :
    (DocumentCrawlerService.queryDocumentsEmbedRequests "clicking noise repair").map
        (fun r => r.taskType) = ["RETRIEVAL_DOCUMENT"] ∧
    ∀ r ∈ DocumentCrawlerService.queryDocumentsEmbedRequests "clicking noise repair",
      r.taskType ≠ "RETRIEVAL_QUERY" := by
  constructor
  · rfl
  · intro r hr
    have hre : r = ⟨"clicking noise repair", "RETRIEVAL_DOCUMENT", 768⟩ := by
      simpa [DocumentCrawlerService.queryDocumentsEmbedRequests,
        RAGService.generateEmbeddingsRequests, DEFAULT_CONFIG] using hr
    rw [hre]
    decide

/-- C2 (amended): the query embedding issued by `queryDocuments` uses the same
`RETRIEVAL_DOCUMENT` task type as the index-time chunk embeddings issued by
`embedAndStore`; the distinct `RETRIEVAL_QUERY` mode exists in
`generateQueryEmbedding` but is not what the store retrieval path calls. -/
theorem c2_query_task_type (query : String) (chunks : List DocumentChunk)
    (config : RAGConfigR) :
    (DocumentCrawlerService.queryDocumentsEmbedRequests query).map
        (fun r => r.taskType) = ["RETRIEVAL_DOCUMENT"] ∧
    (∀ r ∈ DocumentCrawlerService.embedAndStoreEmbedRequests chunks,
      r.taskType = "RETRIEVAL_DOCUMENT") ∧
    (RAGService.generateQueryEmbeddingRequest config query).taskType =
      "RETRIEVAL_QUERY" := by
  refine ⟨rfl, ?_, rfl⟩
  intro r
  induction chunks using DocumentCrawlerService.embedAndStoreEmbedRequests.induct with
  | case1 =>
    intro hr
    rw [DocumentCrawlerService.embedAndStoreEmbedRequests] at hr
    simp at hr
  | case2 c cs ih =>
    intro hr
    rw [DocumentCrawlerService.embedAndStoreEmbedRequests] at hr
    rcases List.mem_append.mp hr with h | h
    · obtain ⟨t, _, rfl⟩ := List.mem_map.mp h
      rfl
    · exact ih h

/-- Witness for C2 (amended) at a concrete query and chunk batch. -/
theorem c2_witness :
    ∃ r ∈ DocumentCrawlerService.embedAndStoreEmbedRequests [exChunkNew],
      r.taskType = "RETRIEVAL_DOCUMENT" := by
  refine ⟨⟨"new content", "RETRIEVAL_DOCUMENT", 768⟩, ?_, ?_⟩
  · simp [DocumentCrawlerService.embedAndStoreEmbedRequests,
      RAGService.generateEmbeddingsRequests, DEFAULT_CONFIG, exChunkNew]
  · exact (c2_query_task_type "q" [exChunkNew] DEFAULT_CONFIG).2.1
      ⟨"new content", "RETRIEVAL_DOCUMENT", 768⟩
      (by simp [DocumentCrawlerService.embedAndStoreEmbedRequests,
        RAGService.generateEmbeddingsRequests, DEFAULT_CONFIG, exChunkNew])

/-- The self dot product is the sum of squares. -/
theorem dotProduct_self_eq (v : List ℝ) :
    dotProduct v v = (v.map (fun x => x * x)).sum := by
  induction v with
  | nil => rfl
  | cons a w ih =>
    rw [dotProduct] at ih ⊢
    rw [List.zip_cons_cons, List.map_cons, List.map_cons, List.sum_cons, List.sum_cons, ih]

/-- The self dot product is nonnegative. -/
theorem dotProduct_self_nonneg (v : List ℝ) : 0 ≤ dotProduct v v := by
  rw [dotProduct_self_eq]
  apply List.sum_nonneg
  intro x hx
  obtain ⟨y, _, rfl⟩ := List.mem_map.mp hx
  exact mul_self_nonneg y

/-- C4 (amended): the crawler's `cosineSimilarity` is a total real-valued
function that never divides by zero: for every vector of non-zero norm the
similarity with itself is exactly 1, and against any zero-norm (in particular
empty) vector it returns 0. -/
theorem c4_cosine_self_one_zero_guard :
    (∀ v : List ℝ, dotProduct v v ≠ 0 →
      DocumentCrawlerService.cosineSimilarity v v = 1) ∧
    (∀ v w : List ℝ, dotProduct w w = 0 →
      DocumentCrawlerService.cosineSimilarity v w = 0) := by
  constructor
  · intro v hne
    have hlen0 : ¬ v.length = 0 := by
      intro h0
      exact hne (by rw [List.length_eq_zero.mp h0]; rfl)
    have hd : 0 ≤ dotProduct v v := dotProduct_self_nonneg v
    have hsq : Real.sqrt (dotProduct v v) * Real.sqrt (dotProduct v v) =
        dotProduct v v := Real.mul_self_sqrt hd
    simp only [DocumentCrawlerService.cosineSimilarity]
    rw [if_neg (by simp [hlen0])]
    rw [if_neg (by rw [hsq]; exact hne), hsq]
    exact div_self hne
  · intro v w hw
    simp only [DocumentCrawlerService.cosineSimilarity]
    by_cases hg : v.length ≠ w.length ∨ v.length = 0
    · rw [if_pos hg]
    · rw [if_neg hg]
      have hz : Real.sqrt (dotProduct w w) = 0 := by rw [hw]; exact Real.sqrt_zero
      rw [if_pos (by rw [hz, mul_zero])]

/-- Witness for C4 (amended) at concrete one-dimensional vectors. -/
theorem c4_witness :
    DocumentCrawlerService.cosineSimilarity [(1 : ℝ)] [1] = 1 ∧
    DocumentCrawlerService.cosineSimilarity [(1 : ℝ)] [0] = 0 :=
  ⟨c4_cosine_self_one_zero_guard.1 [1] (by simp [dotProduct]),
   c4_cosine_self_one_zero_guard.2 [1] [0] (by simp [dotProduct])⟩

/-- C4 (counterexample to the claim as stated): the RAG service's
`cosineSimilarity` does not satisfy the property: on two zero vectors it
divides zero by zero, producing a non-finite number (NaN) rather than 0, and
on vectors of different lengths it throws. -/
theorem c4_counterexample :
    RAGService.cosineSimilarity [(0 : ℝ)] [0] = .ok none ∧
    (Except.ok none : Except String (Option ℝ)) ≠ .ok (some 0) ∧
    RAGService.cosineSimilarity [(1 : ℝ)] [1, 0] =
      .error "Vectors must have same length" := by
  refine ⟨?_, by simp, ?_⟩
  · simp [RAGService.cosineSimilarity, dotProduct]
  · simp [RAGService.cosineSimilarity]

/-- One chunking step preserves the id shape: every emitted chunk's id is the
document-url hash joined with the chunk's own ordinal. -/
theorem chunkStep_id_inv (url title source : String) (cs ov : Nat)
    (st : String × Nat × List DocumentChunk) (para : String)
    (h : ∀ c ∈ st.2.2,
      c.id = DocumentCrawlerService.hashString url ++ "-" ++ toString c.chunkIndex) :
    ∀ c ∈ (DocumentCrawlerService.chunkStep url title source cs ov st para).2.2,
      c.id = DocumentCrawlerService.hashString url ++ "-" ++ toString c.chunkIndex := by
  intro c hc
  rw [DocumentCrawlerService.chunkStep] at hc
  by_cases hcond : st.1.length + para.length > cs ∧ st.1.length > 0
  · rw [if_pos hcond] at hc
    rcases List.mem_append.mp hc with hm | hm
    · exact h c hm
    · rw [List.mem_singleton] at hm
      subst hm
      rfl
  · rw [if_neg hcond] at hc
    exact h c hc

/-- The chunking fold preserves the id shape. -/
theorem chunkFold_id_inv (url title source : String) (cs ov : Nat) :
    ∀ (paras : List String) (st : String × Nat × List DocumentChunk),
      (∀ c ∈ st.2.2,
        c.id = DocumentCrawlerService.hashString url ++ "-" ++ toString c.chunkIndex) →
      ∀ c ∈ (paras.foldl (DocumentCrawlerService.chunkStep url title source cs ov) st).2.2,
        c.id = DocumentCrawlerService.hashString url ++ "-" ++ toString c.chunkIndex := by
  intro paras
  induction paras with
  | nil => intro st h; exact h
  | cons p ps ih =>
    intro st h
    exact ih _ (chunkStep_id_inv url title source cs ov st p h)

/-- C5: chunking is deterministic — it depends only on the document's url,
content, title and source, so re-chunking the same document yields the same
chunk list — and every chunk id is the hash of the parent document's URL
joined with the chunk's ordinal index. -/
theorem c5_chunking_deterministic (d1 d2 : CrawledDocument)
    (h1 : d1.url = d2.url) (h2 : d1.content = d2.content)
    (h3 : d1.title = d2.title) (h4 : d1.metadata.source = d2.metadata.source) :
    DocumentCrawlerService.chunkDocument d1 = DocumentCrawlerService.chunkDocument d2 ∧
    ∀ c ∈ DocumentCrawlerService.chunkDocument d1,
      c.id = DocumentCrawlerService.hashString d1.url ++ "-" ++ toString c.chunkIndex := by
  constructor
  · simp only [DocumentCrawlerService.chunkDocument, h1, h2, h3, h4]
  · intro c hc
    have hinv := chunkFold_id_inv d1.url d1.title d1.metadata.source 1000 200
      (splitParas d1.content) ("", 0, []) (by intro x hx; simp at hx)
    rw [DocumentCrawlerService.chunkDocument] at hc
    split at hc
    · rcases List.mem_append.mp hc with hm | hm
      · exact hinv c hm
      · rw [List.mem_singleton] at hm
        subst hm
        rfl
    · exact hinv c hc

/-- Witness for C5 at a concrete crawled document. -/
theorem c5_witness :
    DocumentCrawlerService.chunkDocument exDoc = DocumentCrawlerService.chunkDocument exDoc ∧
    ∀ c ∈ DocumentCrawlerService.chunkDocument exDoc,
      c.id = DocumentCrawlerService.hashString exDoc.url ++ "-" ++ toString c.chunkIndex :=
  c5_chunking_deterministic exDoc exDoc rfl rfl rfl rfl

/-- C6: on a cache miss, `crawlUrl` rejects any page whose raw HTML body is
under 500 characters or whose stripped text is under 200 characters — even
when the HTTP response succeeded — returning `null` and caching nothing; and
whenever it does return a document, the body had at least 500 characters, the
stripped text at least 200, and exactly that document was appended to the
cache. -/
theorem c6_crawlUrl_min_content (crawlCache : List (String × CrawledDocument))
    (target : CrawlTarget) (resp : HttpResponse) (cleaned : Option String)
    (now : String) (hfresh : cacheLookup crawlCache target.url = none) :
    ((resp.body.length < 500 ∨ (extractTextFromHtml resp.body).length < 200) →
      DocumentCrawlerService.crawlUrl crawlCache target (some resp) cleaned now =
        (none, crawlCache)) ∧
    (∀ doc cache2,
      DocumentCrawlerService.crawlUrl crawlCache target (some resp) cleaned now =
        (some doc, cache2) →
      500 ≤ resp.body.length ∧ 200 ≤ (extractTextFromHtml resp.body).length ∧
        cache2 = crawlCache ++ [(target.url, doc)]) := by
  constructor
  · intro hbad
    simp only [DocumentCrawlerService.crawlUrl, hfresh]
    split_ifs with hok hct hshort hraw htitle
    all_goals first
      | rfl
      | exact absurd hbad (by push_neg; exact ⟨by omega, by omega⟩)
  · intro doc cache2 heq
    simp only [DocumentCrawlerService.crawlUrl, hfresh] at heq
    split_ifs at heq with hok hct hshort hraw htitle
    all_goals rw [Prod.mk.injEq] at heq
    all_goals first
      | exact Option.noConfusion heq.1
      | exact ⟨by omega, by omega, by rw [← heq.2, Option.some.inj heq.1]⟩

/-- Witness for C6 at a concrete successful-but-short HTTP response. -/
theorem c6_witness :
    DocumentCrawlerService.crawlUrl []
        ⟨"https://x.example/p", "T", "", "x.example", 0⟩
        (some ⟨true, 200, "text/html", "too short"⟩) none "2024-01-01" = (none, []) :=
  (c6_crawlUrl_min_content [] ⟨"https://x.example/p", "T", "", "x.example", 0⟩
    ⟨true, 200, "text/html", "too short"⟩ none "2024-01-01" rfl).1 (Or.inl (by decide))

/-- Every hit kept by the `searchChunks` scan carries a finite score that
passed the minimum-score gate. -/
theorem searchChunksGo_minScore (config : RAGConfigR) (qe : List ℝ) :
    ∀ (chunks : List ChunkedDocument) (res : List SearchResult),
      RAGService.searchChunksGo config qe chunks = .ok res →
      ∀ r ∈ res, ∃ v, r.score = some v ∧ config.minScore ≤ v := by
  intro chunks
  induction chunks with
  | nil =>
    intro res h r hr
    rw [RAGService.searchChunksGo] at h
    cases h
    simp at hr
  | cons c cs ih =>
    intro res h r hr
    rw [RAGService.searchChunksGo] at h
    cases hemb : c.embedding with
    | none =>
      rw [hemb] at h
      exact ih res h r hr
    | some e =>
      simp only [hemb] at h
      cases hcos : RAGService.cosineSimilarity qe e with
      | error msg =>
        simp only [hcos] at h
        exact Except.noConfusion h
      | ok s =>
        simp only [hcos] at h
        cases hrec : RAGService.searchChunksGo config qe cs with
        | error msg =>
          simp only [hrec] at h
          exact Except.noConfusion h
        | ok rest =>
          simp only [hrec, Except.ok.injEq] at h
          by_cases hkeep : RAGService.keepScore config.minScore s = true
          · rw [if_pos hkeep] at h
            subst h
            rcases List.mem_cons.mp hr with hr1 | hr2
            · subst hr1
              cases s with
              | none => simp [RAGService.keepScore] at hkeep
              | some v =>
                refine ⟨v, rfl, ?_⟩
                rw [RAGService.keepScore] at hkeep
                exact of_decide_eq_true hkeep
            · exact ih rest hrec r hr2
          · rw [if_neg hkeep] at h
            subst h
            exact ih rest hrec r hr

/-- Every hit returned by `searchChunks` carries a finite score at or above
the configured minimum. -/
theorem searchChunks_minScore (config : RAGConfigR) (qe : List ℝ)
    (rchunks : List ChunkedDocument) (res : List SearchResult)
    (h : RAGService.searchChunks config qe rchunks = .ok res) :
    ∀ r ∈ res, ∃ v, r.score = some v ∧ config.minScore ≤ v := by
  rw [RAGService.searchChunks] at h
  cases hgo : RAGService.searchChunksGo config qe rchunks with
  | error msg =>
    rw [hgo] at h
    exact Except.noConfusion h
  | ok res0 =>
    rw [hgo] at h
    have hres : (res0.mergeSort
        (fun a b => decide ((b.score.getD 0) ≤ (a.score.getD 0)))).take config.topK
        = res := by
      simpa [Except.map] using h
    intro r hr
    rw [← hres] at hr
    have hms : r ∈ res0.mergeSort
        (fun a b => decide ((b.score.getD 0) ≤ (a.score.getD 0))) :=
      (List.take_sublist _ _).subset hr
    have hr0 : r ∈ res0 := (List.mergeSort_perm res0 _).mem_iff.mp hms
    exact searchChunksGo_minScore config qe rchunks res0 hgo r hr0

/-- C1 (amended): `queryDocuments` returns at most `topK` hits, sorted by
descending cosine-similarity score, each originating from a stored chunk and
paired with that chunk's document URL and its score against the query
embedding; it applies no minimum-score threshold — that filter exists only in
`RAGService.searchChunks`, whose every returned hit does meet the configured
minimum. -/
theorem c1_queryDocuments_topk_sorted
    (documentStore : String → Option (List DocumentChunk)) (storeId : String)
    (queryEmbedding : List ℝ) (topK : Nat) (chunks : List DocumentChunk)
    (h : documentStore storeId = some chunks) :
    (DocumentCrawlerService.queryDocuments documentStore storeId queryEmbedding
      topK).length ≤ topK ∧
    List.Pairwise (fun a b => b.score ≤ a.score)
      (DocumentCrawlerService.queryDocuments documentStore storeId queryEmbedding topK) ∧
    (∀ r ∈ DocumentCrawlerService.queryDocuments documentStore storeId queryEmbedding topK,
      ∃ c ∈ chunks, r.content = c.content ∧ r.source = c.documentUrl ∧
        r.score = DocumentCrawlerService.cosineSimilarity queryEmbedding
          (c.embedding.getD [])) ∧
    (∀ (config : RAGConfigR) (qe : List ℝ) (rchunks : List ChunkedDocument)
        (res : List SearchResult),
      RAGService.searchChunks config qe rchunks = .ok res →
      ∀ r ∈ res, ∃ v, r.score = some v ∧ config.minScore ≤ v) := by
  refine ⟨?_, ?_, ?_,
    fun config qe rchunks res hok => searchChunks_minScore config qe rchunks res hok⟩
  all_goals simp only [DocumentCrawlerService.queryDocuments, h]
  · by_cases hc0 : chunks.length = 0
    · rw [if_pos hc0]
      simp
    · rw [if_neg hc0, List.length_map, List.length_take]
      exact min_le_left _ _
  · by_cases hc0 : chunks.length = 0
    · rw [if_pos hc0]
      simp
    · rw [if_neg hc0]
      have htrans : ∀ a b c : DocumentChunk × ℝ,
          (fun x y => decide (y.2 ≤ x.2)) a b = true →
          (fun x y => decide (y.2 ≤ x.2)) b c = true →
          (fun x y => decide (y.2 ≤ x.2)) a c = true := by
        intro a b c hab hbc
        simp only [decide_eq_true_eq] at hab hbc ⊢
        exact le_trans hbc hab
      have htot : ∀ a b : DocumentChunk × ℝ,
          ((fun x y => decide (y.2 ≤ x.2)) a b
            || (fun x y => decide (y.2 ≤ x.2)) b a) = true := by
        intro a b
        simp only [Bool.or_eq_true, decide_eq_true_eq]
        exact le_total b.2 a.2
      have hpw := List.sorted_mergeSort htrans htot
        (chunks.map (fun c => (c, DocumentCrawlerService.cosineSimilarity queryEmbedding
          (c.embedding.getD []))))
      have hpwtake := List.Pairwise.sublist (List.take_sublist topK _) hpw
      refine List.Pairwise.map _ ?_ hpwtake
      intro a b hab
      simpa using hab
  · by_cases hc0 : chunks.length = 0
    · rw [if_pos hc0]
      simp
    · rw [if_neg hc0]
      intro r hr
      obtain ⟨p, hpmem, hfn⟩ := List.mem_map.mp hr
      have hp2 := (List.take_sublist topK _).subset hpmem
      have hp3 := (List.mergeSort_perm _ _).mem_iff.mp hp2
      obtain ⟨c, hcmem, hpc⟩ := List.mem_map.mp hp3
      refine ⟨c, hcmem, ?_, ?_, ?_⟩ <;> rw [← hfn, ← hpc]

/-- Witness for C1 (amended) at a concrete store. -/
theorem c1_witness :
    (DocumentCrawlerService.queryDocuments
      (fun sid => if sid = "store-e" then some [] else none) "store-e" [] 5).length ≤ 5 :=
  (c1_queryDocuments_topk_sorted (fun sid => if sid = "store-e" then some [] else none)
    "store-e" [] 5 [] (by simp)).1

/-- C1 (counterexample to the claim as stated): `queryDocuments` returns a
hit whose score is far below the configured minimum score (0.5); it performs
no threshold filtering. -/
theorem c1_counterexample :
    ∃ r ∈ DocumentCrawlerService.queryDocuments exStoreC1 "store-c" [(-1 : ℝ)] 5,
      r.score < DEFAULT_CONFIG.minScore := by
  have hcos : DocumentCrawlerService.cosineSimilarity [(-1 : ℝ)] [(1 : ℝ)] = -1 := by
    simp only [DocumentCrawlerService.cosineSimilarity]
    rw [if_neg (by simp)]
    have h1 : dotProduct [(-1 : ℝ)] [(1 : ℝ)] = -1 := by simp [dotProduct]
    have h2 : dotProduct [(-1 : ℝ)] [(-1 : ℝ)] = 1 := by simp [dotProduct]
    have h3 : dotProduct [(1 : ℝ)] [(1 : ℝ)] = 1 := by simp [dotProduct]
    rw [h1, h2, h3, Real.sqrt_one]
    rw [if_neg (by norm_num)]
    norm_num
  have hq : DocumentCrawlerService.queryDocuments exStoreC1 "store-c" [(-1 : ℝ)] 5 =
      [⟨"cv joint text", "https://c.example/doc", -1⟩] := by
    have hstore : exStoreC1 "store-c" = some [exChunkC1] := by simp [exStoreC1]
    simp only [DocumentCrawlerService.queryDocuments, hstore]
    rw [if_neg (by simp)]
    simp only [List.map_cons, List.map_nil, exChunkC1]
    rw [List.mergeSort_singleton]
    simp [hcos]
  rw [hq]
  refine ⟨⟨"cv joint text", "https://c.example/doc", -1⟩, List.mem_singleton.mpr rfl, ?_⟩
  show (-1 : ℝ) < DEFAULT_CONFIG.minScore
  rw [show DEFAULT_CONFIG.minScore = 0.5 from rfl]
  norm_num
